import Mathlib

/-!
# my-rest-api: the six request handlers of `src/index.js`

A shallow embedding of the Express handlers of `src/index.js` over an explicit
document store, followed by the properties of the account directory.

* The store is the list of `User` documents in the collection's natural order.
* A handler is a function from the request (and the store before it) to the
  response it sends (or the rejection it lets escape) and the store after it.
* Everything a handler draws from outside its request is an explicit input:
  the `_id` generated for a new document, the salt drawn by bcrypt, and which
  of the handler's persistence calls throw (`Env`).
* The collaborators that are not part of `src/index.js` (bcrypt, the token
  service) are parameters (`Services`).
* Request fields are JSON strings or absent (`Option String`); `ids` is absent,
  a non-array value, or an array of identifiers (`JsIds`).
-/

namespace MyRestApi

/-! ## Data model -/

/-- Document identifier (`_id`), an opaque value with decidable equality. -/
abbrev ObjectId := Nat

/-- Modelled from the spec: the schema `./models/User.js` is not among the
sources. A user document carries an identifier and the four fields the handlers
read and write: `name`, `email`, `password` (the stored secret) and `status`.
A field that was never set is `none`. The schema declares no validator and no
unique index (the spec states that uniqueness of `email` is enforced by the
existence check of `/register` only). -/
structure User where
  id : ObjectId
  name : Option String
  email : Option String
  password : Option String
  status : Option String
deriving DecidableEq, Repr

/-- The collection, in its natural order. -/
abbrev Store := List User

/-- What a rejected promise carries. -/
inductive Failure where
  | storeError      -- a persistence call threw (connection lost, time-out, ...)
  | duplicateKey    -- insert of a document whose `_id` is already present
  | bcryptArguments -- bcrypt called with a missing argument
deriving DecidableEq, Repr

/-- Payload of a response. -/
inductive Body where
  | text (message : String)
  | user (u : User)
  | users (us : List User)
  | token (t : String)
deriving DecidableEq, Repr

/-- What the caller of a handler observes: either a response with a status code,
or nothing at all because the handler's promise rejected and nobody caught it. -/
inductive Outcome where
  | response (status : Nat) (body : Body)
  | unhandled (e : Failure)
deriving DecidableEq, Repr

/-- The collaborators of `src/index.js` that are taken as parameters.
`hash salt data rounds` is `bcrypt.hash(data, rounds)` when bcrypt draws `salt`,
`compare data hash` is `bcrypt.compare(data, hash)` on two strings, and
`generateUserToken` is the function imported from `./services/token.js`. -/
structure Services where
  hash : String → String → Nat → String
  compare : String → String → Bool
  generateUserToken : ObjectId → String

/-- What one request draws from its environment: the `_id` that `new User`
generates, the salt bcrypt draws, and for each persistence call of the handler
(numbered from 0 in program order) whether that call throws. -/
structure Env where
  newId : ObjectId
  salt : String
  down : Nat → Bool

/-! ## JavaScript values -/

/-- Negation of a request field, `!x`, for a field that is a string or absent:
true for `undefined` and for the empty string. -/
def falsy : Option String → Bool
  | none => true
  | some s => s == ""

/-- The `ids` member of a request body: absent, a JSON value that is not an
array (with its truthiness), or an array of identifiers. -/
inductive JsIds where
  | undefined
  | other (truthy : Bool)
  | array (xs : List ObjectId)
deriving DecidableEq, Repr

/-- Truthiness, `!!ids`; every array is truthy, also the empty one. -/
def JsIds.truthy : JsIds → Bool
  | .undefined => false
  | .other t => t
  | .array _ => true

/-- The test `Array.isArray(ids)`. -/
def JsIds.isArray : JsIds → Bool
  | .array _ => true
  | _ => false

/-- The elements of `ids` when it is an array. -/
def JsIds.elems : JsIds → List ObjectId
  | .array xs => xs
  | _ => []

/-! ## bcrypt -/

/-- The call `bcrypt.hash(data, rounds)`: rejects when `data` is missing. -/
def bcryptHash (svc : Services) (salt : String) (data : Option String) (rounds : Nat) :
    Except Failure String :=
  match data with
  | none => .error .bcryptArguments
  | some d => .ok (svc.hash salt d rounds)

/-- The call `bcrypt.compare(data, hash)`: rejects when an argument is missing. -/
def bcryptCompare (svc : Services) (data : Option String) (hash : Option String) :
    Except Failure Bool :=
  match data, hash with
  | some d, some h => .ok (svc.compare d h)
  | _, _ => .error .bcryptArguments

/-! ## Persistence calls

Modelled from the spec (§6, persistence collaborator): Mongoose itself is not
part of the repository. Each call takes `down`, whether this call throws. -/

/-- Modelled from the spec: `User.findOne({ email })`, the first document
whose `email` equals the given value (`findByKey`). -/
def findOne (down : Bool) (email : Option String) (store : Store) :
    Except Failure (Option User) :=
  if down then .error .storeError
  else .ok (store.find? (fun u => u.email == email))

/-- Modelled from the spec: `User.find()`, all documents (`findAll`). -/
def find (down : Bool) (store : Store) : Except Failure (List User) :=
  if down then .error .storeError else .ok store

/-- Modelled from the spec: `user.save()` of a new document (`insert`); the
identifier index rejects a document whose `_id` is already present. -/
def save (down : Bool) (user : User) (store : Store) : Except Failure Store :=
  if down then .error .storeError
  else if store.any (fun u => u.id == user.id) then .error .duplicateKey
  else .ok (store ++ [user])

/-- Modelled from the spec: `User.findByIdAndRemove(id)` (`deleteById`): removes
the first document with that `_id` and returns it, or returns nothing. -/
def findByIdAndRemove (down : Bool) (id : ObjectId) (store : Store) :
    Except Failure (Option User × Store) :=
  if down then .error .storeError
  else
    match store.find? (fun u => u.id == id) with
    | none => .ok (none, store)
    | some u => .ok (some u, store.eraseP (fun u => u.id == id))

/-- The update document `{ name, email, password, status }` that the update
handler builds: all four keys, each with the value of the request field, which
is `undefined` when the request omits it. -/
structure UpdateDoc where
  name : Option String
  email : Option String
  password : Option String
  status : Option String
deriving DecidableEq, Repr

/-- One key of an update document applied to the stored value of that field:
a key that carries a value sets the field, a key whose value is `undefined`
is dropped from the update and the stored value stays. -/
def setField (stored : Option String) (given : Option String) : Option String :=
  match given with
  | some v => some v
  | none => stored

/-- Modelled from the spec: the effect of an update document on one stored
document (`updateById(id, partialFields)`). The persistence layer removes the
keys whose value is `undefined` before it applies the update, so exactly the
fields the request provided are set and the others keep their stored value. -/
def applyUpdate (u : User) (upd : UpdateDoc) : User :=
  { u with
    name := setField u.name upd.name,
    email := setField u.email upd.email,
    password := setField u.password upd.password,
    status := setField u.status upd.status }

/-- Replaces the first document with the given `_id` by its updated version. -/
def updateFirst (id : ObjectId) (upd : UpdateDoc) : Store → Store
  | [] => []
  | u :: rest =>
    if u.id == id then applyUpdate u upd :: rest else u :: updateFirst id upd rest

/-- Modelled from the spec: `User.findByIdAndUpdate(id, upd, { new: true })`
(`updateById`): updates the first document with that `_id` and returns the
document after the update, or returns nothing. -/
def findByIdAndUpdate (down : Bool) (id : ObjectId) (upd : UpdateDoc) (store : Store) :
    Except Failure (Option User × Store) :=
  if down then .error .storeError
  else
    match store.find? (fun u => u.id == id) with
    | none => .ok (none, store)
    | some u => .ok (some (applyUpdate u upd), updateFirst id upd store)

/-- Modelled from the spec: `User.deleteMany({ _id: { $in: ids } })`
(`deleteByIds`): removes every document whose `_id` occurs in `ids` and returns
the number of documents removed. -/
def deleteMany (down : Bool) (ids : List ObjectId) (store : Store) :
    Except Failure (Nat × Store) :=
  if down then .error .storeError
  else .ok ((store.filter (fun u => decide (u.id ∈ ids))).length,
            store.filter (fun u => !decide (u.id ∈ ids)))

/-! ## Request handlers of `src/index.js` -/

/-- Body of `POST /register`. -/
structure RegisterBody where
  name : Option String
  email : Option String
  password : Option String
deriving DecidableEq, Repr

/-- Body of `POST /login`. -/
structure LoginBody where
  email : Option String
  password : Option String
deriving DecidableEq, Repr

/-- Body of `PUT /users/update/:id`. -/
structure UpdateBody where
  name : Option String
  status : Option String
  email : Option String
  password : Option String
deriving DecidableEq, Repr

/-- Handler `app.post("/register")` (lines 48-66). No `try`: a rejection of
`findOne`, `bcrypt.hash` or `save` escapes. -/
def postRegister (svc : Services) (env : Env) (store : Store) (body : RegisterBody) :
    Outcome × Store :=
  match findOne (env.down 0) body.email store with
  | .error e => (.unhandled e, store)
  | .ok (some _) => (.response 400 (.text "User already exists"), store)
  | .ok none =>
    match bcryptHash svc env.salt body.password 10 with
    | .error e => (.unhandled e, store)
    | .ok hashedPassword =>
      let user : User :=
        { id := env.newId, name := body.name, email := body.email,
          password := some hashedPassword, status := some "active" }
      match save (env.down 1) user store with
      | .error e => (.unhandled e, store)
      | .ok store' => (.response 200 (.user user), store')

/-- Handler `app.get("/users")` (lines 68-76). -/
def getUsers (env : Env) (store : Store) : Outcome × Store :=
  match find (env.down 0) store with
  | .ok users => (.response 200 (.users users), store)
  | .error _ => (.response 500 (.text "Server Error"), store)

/-- Handler `app.delete("/user/delete/:id")` (lines 78-90). -/
def deleteUserDelete (env : Env) (store : Store) (id : ObjectId) : Outcome × Store :=
  match findByIdAndRemove (env.down 0) id store with
  | .error _ => (.response 500 (.text "Server Error"), store)
  | .ok (none, store') => (.response 404 (.text "User not found"), store')
  | .ok (some _, store') =>
    match find (env.down 1) store' with
    | .ok users => (.response 200 (.users users), store')
    | .error _ => (.response 500 (.text "Server Error"), store')

/-- Handler `app.post("/login")` (lines 92-107). No `try`: a rejection of
`findOne` or `bcrypt.compare` escapes. -/
def postLogin (svc : Services) (env : Env) (store : Store) (body : LoginBody) :
    Outcome × Store :=
  if falsy body.email || falsy body.password then
    (.response 400 (.text "Fill inputs."), store)
  else
    match findOne (env.down 0) body.email store with
    | .error e => (.unhandled e, store)
    | .ok none => (.response 400 (.text "User already exist"), store)
    | .ok (some existUser) =>
      match bcryptCompare svc body.password existUser.password with
      | .error e => (.unhandled e, store)
      | .ok false => (.response 400 (.text "Incorrect password!"), store)
      | .ok true => (.response 200 (.token (svc.generateUserToken existUser.id)), store)

/-- Handler `app.put("/users/update/:id")` (lines 109-135). -/
def putUsersUpdate (env : Env) (store : Store) (userId : ObjectId) (body : UpdateBody) :
    Outcome × Store :=
  let upd : UpdateDoc :=
    { name := body.name, email := body.email, password := body.password, status := body.status }
  match findByIdAndUpdate (env.down 0) userId upd store with
  | .error _ => (.response 500 (.text "Server Error"), store)
  | .ok (none, store') => (.response 404 (.text "User not found"), store')
  | .ok (some updatedUser, store') => (.response 200 (.user updatedUser), store')

/-- Handler `app.delete("/users/delete")` (lines 137-158). -/
def deleteUsersDelete (env : Env) (store : Store) (ids : JsIds) : Outcome × Store :=
  if !ids.truthy || !ids.isArray || ids.elems.length == 0 then
    (.response 400 (.text "Please provide valid user IDs to delete"), store)
  else
    match deleteMany (env.down 0) ids.elems store with
    | .error _ => (.response 500 (.text "Server Error"), store)
    | .ok (deletedCount, store') =>
      if deletedCount == 0 then
        (.response 404 (.text "Users not found"), store')
      else
        match find (env.down 1) store' with
        | .ok users => (.response 200 (.users users), store')
        | .error _ => (.response 500 (.text "Server Error"), store')

/-! ## Predicates on stores -/

/-- No two documents share an `_id` (the identifier index of the collection). -/
def UniqueIds (store : Store) : Prop := (store.map (fun u => u.id)).Nodup

instance (store : Store) : Decidable (UniqueIds store) := by
  unfold UniqueIds; infer_instance

/-- No two documents at different positions share an `email`. -/
def UniqueEmails (store : Store) : Prop := (store.map (fun u => u.email)).Nodup

instance (store : Store) : Decidable (UniqueEmails store) := by
  unfold UniqueEmails; infer_instance

/-- The string `h` is something `bcrypt.hash(_, 10)` can return. -/
def IsHashOutput (svc : Services) (h : String) : Prop :=
  ∃ salt data, svc.hash salt data 10 = h

/-- Every stored `password` is an output of the hashing primitive. -/
def AllHashed (svc : Services) (store : Store) : Prop :=
  ∀ u ∈ store, ∃ h, u.password = some h ∧ IsHashOutput svc h

/-- A hashing collaborator used to instantiate the statements: the secret of
`data` is `data` behind a `$` sign, and comparison recomputes it. -/
def demoServices : Services where
  hash := fun _ data _ => String.mk (String.toList "$" ++ data.data)
  compare := fun data h => h == String.mk (String.toList "$" ++ data.data)
  generateUserToken := fun id => "token-" ++ toString id

/-- A registered user of the examples, with a secret made by `demoServices`. -/
def alice : User :=
  { id := 1, name := some "A", email := some "a@x.com",
    password := some "$pw1", status := some "active" }

/-- A second registered user of the examples. -/
def bob : User :=
  { id := 2, name := some "B", email := some "b@x.com",
    password := some "$pw2", status := some "active" }

/-- An environment in which no persistence call throws. -/
def calmEnv (newId : ObjectId) (salt : String) : Env :=
  { newId := newId, salt := salt, down := fun _ => false }

/-! # Properties -/

/-! ## Persistence calls that do not throw -/

theorem findOne_eq_none {e : Option String} {store : Store}
    (h : ∀ u ∈ store, u.email ≠ e) : findOne false e store = .ok none := by
  have : store.find? (fun u => u.email == e) = none := by
    rw [List.find?_eq_none]
    intro u hu
    simpa using h u hu
  simp [findOne, this]

theorem findOne_eq_some {e : Option String} {store : Store}
    (h : ∃ u ∈ store, u.email = e) :
    ∃ u, u ∈ store ∧ u.email = e ∧ findOne false e store = .ok (some u) := by
  obtain ⟨w, hw, hwe⟩ := h
  cases hf : store.find? (fun u => u.email == e) with
  | none =>
    rw [List.find?_eq_none] at hf
    exact absurd (by simpa using hwe) (hf w hw)
  | some u =>
    refine ⟨u, List.mem_of_find?_eq_some hf, ?_, by simp [findOne, hf]⟩
    simpa using List.find?_some hf

theorem findOne_append_new {e : Option String} {store : Store} {u : User}
    (h : ∀ v ∈ store, v.email ≠ e) (hu : u.email = e) :
    findOne false e (store ++ [u]) = .ok (some u) := by
  have hn : store.find? (fun v => v.email == e) = none := by
    rw [List.find?_eq_none]
    intro v hv
    simpa using h v hv
  simp [findOne, List.find?_append, hn, hu]

theorem save_fresh {user : User} {store : Store}
    (h : ∀ u ∈ store, u.id ≠ user.id) : save false user store = .ok (store ++ [user]) := by
  have : store.any (fun u => u.id == user.id) = false := by
    rw [List.any_eq_false]
    intro u hu
    simpa using h u hu
  simp [save, this]

theorem filter_email_append_new {e : Option String} {store : Store} {u : User}
    (h : ∀ v ∈ store, v.email ≠ e) (hu : u.email = e) :
    (store ++ [u]).filter (fun v => v.email == e) = [u] := by
  have hn : store.filter (fun v => v.email == e) = [] := by
    rw [List.filter_eq_nil_iff]
    intro v hv
    simpa using h v hv
  simp [List.filter_append, hn, hu]

/-- What a successful registration does, for a request with a password, a
store without the email, a fresh `_id` and no persistence failure. -/
theorem postRegister_fresh (svc : Services) (env : Env) (store : Store)
    (name email : Option String) (p : String)
    (h0 : env.down 0 = false) (h1 : env.down 1 = false)
    (hemail : ∀ u ∈ store, u.email ≠ email) (hid : ∀ u ∈ store, u.id ≠ env.newId) :
    postRegister svc env store { name := name, email := email, password := some p } =
      (.response 200 (.user
          { id := env.newId, name := name, email := email,
            password := some (svc.hash env.salt p 10), status := some "active" }),
        store ++ [{ id := env.newId, name := name, email := email,
                    password := some (svc.hash env.salt p 10), status := some "active" }]) := by
  simp only [postRegister, h0, h1, findOne_eq_none hemail, bcryptHash]
  rw [save_fresh (by simpa using hid)]

/-- C1: when the store already holds a document with the request's email,
`POST /register` answers 400 "User already exists" and leaves the store as it
was; and when a registration on a store without that email is followed by a
second registration with the same email, the second one answers 400, changes
nothing, and the store holds exactly one document with that email. The
persistence calls involved are assumed not to throw, and the first of the two
registrations carries a password and draws an `_id` not yet in the store. -/
theorem postRegister_conflict (svc : Services) (env env' : Env) (store : Store)
    (body : RegisterBody) (name' password' : Option String) (p : String) :
    (env.down 0 = false → (∃ u ∈ store, u.email = body.email) →
      postRegister svc env store body =
        (.response 400 (.text "User already exists"), store)) ∧
    (env.down 0 = false → env.down 1 = false → env'.down 0 = false →
      body.password = some p →
      (∀ u ∈ store, u.email ≠ body.email) → (∀ u ∈ store, u.id ≠ env.newId) →
      (postRegister svc env' (postRegister svc env store body).2
          { name := name', email := body.email, password := password' } =
        (.response 400 (.text "User already exists"), (postRegister svc env store body).2)) ∧
      ((postRegister svc env store body).2.filter
          (fun u => u.email == body.email)).length = 1) := by
  constructor
  · intro h0 hex
    obtain ⟨u, -, -, hf⟩ := findOne_eq_some hex
    simp [postRegister, h0, hf]
  · intro h0 h1 h0' hp hemail hid
    obtain ⟨name, email, password⟩ := body
    simp only at hp hemail ⊢
    subst hp
    rw [postRegister_fresh svc env store name email p h0 h1 hemail hid]
    constructor
    · simp only [postRegister, h0']
      rw [findOne_append_new hemail rfl]
    · simp only
      rw [filter_email_append_new hemail rfl]
      rfl

theorem postRegister_conflict_witness :
    postRegister demoServices (calmEnv 2 "s") [alice]
        { name := some "B", email := some "a@x.com", password := some "pw2" } =
      (.response 400 (.text "User already exists"), [alice]) ∧
    postRegister demoServices (calmEnv 3 "t")
        (postRegister demoServices (calmEnv 2 "s") [alice]
          { name := some "B", email := some "b@x.com", password := some "pw2" }).2
        { name := none, email := some "b@x.com", password := none } =
      (.response 400 (.text "User already exists"),
        (postRegister demoServices (calmEnv 2 "s") [alice]
          { name := some "B", email := some "b@x.com", password := some "pw2" }).2) ∧
    ((postRegister demoServices (calmEnv 2 "s") [alice]
          { name := some "B", email := some "b@x.com", password := some "pw2" }).2.filter
        (fun u => u.email == some "b@x.com")).length = 1 :=
  ⟨(postRegister_conflict demoServices (calmEnv 2 "s") (calmEnv 3 "t") [alice]
      { name := some "B", email := some "a@x.com", password := some "pw2" }
      none none "pw2").1 rfl ⟨_, List.mem_singleton.mpr rfl, rfl⟩,
    (postRegister_conflict demoServices (calmEnv 2 "s") (calmEnv 3 "t") [alice]
      { name := some "B", email := some "b@x.com", password := some "pw2" }
      none none "pw2").2 rfl rfl rfl rfl
      (by intro u hu; rw [List.mem_singleton.mp hu]; decide)
      (by intro u hu; rw [List.mem_singleton.mp hu]; decide)⟩

/-- C2: on a store without the request's email, `POST /register` with a
password answers 200 with the document it stored: the request's name and
email, status "active", and as password the bcrypt hash of the request's
password at 10 rounds; the store after the call is the store before it followed
by that one document. The two persistence calls are assumed not to throw and
the `_id` drawn for the new document is not yet in the store. -/
theorem postRegister_success (svc : Services) (env : Env) (store : Store)
    (name email : Option String) (p : String)
    (h0 : env.down 0 = false) (h1 : env.down 1 = false)
    (hemail : ∀ u ∈ store, u.email ≠ email) (hid : ∀ u ∈ store, u.id ≠ env.newId) :
    ∃ user : User,
      postRegister svc env store { name := name, email := email, password := some p } =
        (.response 200 (.user user), store ++ [user]) ∧
      user.name = name ∧ user.email = email ∧ user.status = some "active" ∧
      user.password = some (svc.hash env.salt p 10) ∧
      (store ++ [user]).length = store.length + 1 ∧
      (∀ u ∈ store, u ∈ store ++ [user]) ∧
      (store ++ [user]).take store.length = store :=
  ⟨_, postRegister_fresh svc env store name email p h0 h1 hemail hid, rfl, rfl, rfl, rfl,
    by simp, fun u hu => List.mem_append_left _ hu, by simp⟩

theorem postRegister_success_witness :
    ∃ user : User,
      postRegister demoServices (calmEnv 2 "s") [alice]
          { name := some "B", email := some "b@x.com", password := some "pw2" } =
        (.response 200 (.user user), [alice] ++ [user]) ∧
      user.name = some "B" ∧ user.email = some "b@x.com" ∧ user.status = some "active" ∧
      user.password = some (demoServices.hash "s" "pw2" 10) ∧
      ([alice] ++ [user]).length = [alice].length + 1 ∧
      (∀ u ∈ [alice], u ∈ [alice] ++ [user]) ∧
      ([alice] ++ [user]).take [alice].length = [alice] :=
  postRegister_success demoServices (calmEnv 2 "s") [alice]
    (some "B") (some "b@x.com") "pw2" rfl rfl
    (by intro u hu; rw [List.mem_singleton.mp hu]; decide)
    (by intro u hu; rw [List.mem_singleton.mp hu]; decide)

theorem find?_id_eq_none {id : ObjectId} {store : Store} (h : ∀ u ∈ store, u.id ≠ id) :
    store.find? (fun u => u.id == id) = none := by
  rw [List.find?_eq_none]
  intro u hu
  simpa using h u hu

theorem find?_id_eq_some {id : ObjectId} {store : Store} (h : ∃ u ∈ store, u.id = id) :
    ∃ u, u ∈ store ∧ u.id = id ∧ store.find? (fun u => u.id == id) = some u := by
  obtain ⟨w, hw, hwi⟩ := h
  cases hf : store.find? (fun u => u.id == id) with
  | none =>
    rw [List.find?_eq_none] at hf
    exact absurd (by simpa using hwi) (hf w hw)
  | some u =>
    exact ⟨u, List.mem_of_find?_eq_some hf, by simpa using List.find?_some hf, rfl⟩

/-- With pairwise distinct identifiers, removing the first document with an
identifier removes every document with it. -/
theorem eraseP_id_eq_filter (id : ObjectId) :
    ∀ store : Store, UniqueIds store →
      store.eraseP (fun u => u.id == id) = store.filter (fun u => u.id != id)
  | [], _ => rfl
  | u :: rest, h => by
    unfold UniqueIds at h
    rw [List.map_cons, List.nodup_cons] at h
    by_cases hu : u.id = id
    · have hrest : rest.filter (fun v => v.id != id) = rest := by
        rw [List.filter_eq_self]
        intro v hv
        have : v.id ≠ id := fun hv' => h.1 (List.mem_map.mpr ⟨v, hv, hv'.trans hu.symm⟩)
        simpa using this
      simp [List.eraseP_cons, hu, hrest]
    · have ih := eraseP_id_eq_filter id rest h.2
      simp [List.eraseP_cons, hu, ih]

/-- C3: `POST /login` never changes the store and decides in this order: 400
"Fill inputs." when the email or the password is absent or empty; otherwise 400
"User already exist" (the handler's message for an unknown email) when no
document has the email; otherwise, for the first document with the email and
its stored secret, 400 "Incorrect password!" when `bcrypt.compare` says no, and
200 with the token of that document's identifier when it says yes. -/
theorem postLogin_decides (svc : Services) (env : Env) (store : Store) (body : LoginBody) :
    (postLogin svc env store body).2 = store ∧
    (falsy body.email = true ∨ falsy body.password = true →
      (postLogin svc env store body).1 = .response 400 (.text "Fill inputs.")) ∧
    (env.down 0 = false → falsy body.email = false → falsy body.password = false →
      (∀ u ∈ store, u.email ≠ body.email) →
      (postLogin svc env store body).1 = .response 400 (.text "User already exist")) ∧
    (∀ (u : User) (p h : String), env.down 0 = false →
      falsy body.email = false → body.password = some p → p ≠ "" →
      store.find? (fun v => v.email == body.email) = some u → u.password = some h →
      (svc.compare p h = false →
        (postLogin svc env store body).1 = .response 400 (.text "Incorrect password!")) ∧
      (svc.compare p h = true →
        (postLogin svc env store body).1 =
          .response 200 (.token (svc.generateUserToken u.id)))) := by
  refine ⟨?_, ?_, ?_, ?_⟩
  · unfold postLogin
    split
    · rfl
    · split
      · rfl
      · rfl
      · split <;> rfl
  · intro h
    have : (falsy body.email || falsy body.password) = true := by
      rcases h with h | h <;> simp [h]
    simp [postLogin, this]
  · intro h0 he hp hnone
    simp [postLogin, he, hp, h0, findOne_eq_none hnone]
  · intro u p h h0 he hp hpne hfind hpw
    have hfp : falsy (some p) = false := by simp [falsy, hpne]
    constructor
    · intro hc
      simp [postLogin, he, hfp, h0, findOne, hfind, bcryptCompare, hp, hpw, hc]
    · intro hc
      simp [postLogin, he, hfp, h0, findOne, hfind, bcryptCompare, hp, hpw, hc]

theorem postLogin_decides_witness :
    postLogin demoServices (calmEnv 9 "s") [alice, bob] { email := none, password := some "pw1" } =
      (.response 400 (.text "Fill inputs."), [alice, bob]) ∧
    (postLogin demoServices (calmEnv 9 "s") [alice, bob]
        { email := some "c@x.com", password := some "pw1" }).1 =
      .response 400 (.text "User already exist") ∧
    (postLogin demoServices (calmEnv 9 "s") [alice, bob]
        { email := some "b@x.com", password := some "pw1" }).1 =
      .response 400 (.text "Incorrect password!") ∧
    (postLogin demoServices (calmEnv 9 "s") [alice, bob]
        { email := some "b@x.com", password := some "pw2" }).1 =
      .response 200 (.token (demoServices.generateUserToken 2)) :=
  ⟨Prod.ext
      ((postLogin_decides demoServices (calmEnv 9 "s") [alice, bob]
        { email := none, password := some "pw1" }).2.1 (Or.inl rfl))
      (postLogin_decides demoServices (calmEnv 9 "s") [alice, bob]
        { email := none, password := some "pw1" }).1,
    (postLogin_decides demoServices (calmEnv 9 "s") [alice, bob]
        { email := some "c@x.com", password := some "pw1" }).2.2.1 rfl (by decide) (by decide)
        (by decide),
    ((postLogin_decides demoServices (calmEnv 9 "s") [alice, bob]
        { email := some "b@x.com", password := some "pw1" }).2.2.2 bob "pw1" "$pw2" rfl
        (by decide) rfl (by decide) (by decide) rfl).1 (by decide),
    ((postLogin_decides demoServices (calmEnv 9 "s") [alice, bob]
        { email := some "b@x.com", password := some "pw2" }).2.2.2 bob "pw2" "$pw2" rfl
        (by decide) rfl (by decide) (by decide) rfl).2 (by decide)⟩

theorem filter_mem_ids_eq_nil {xs : List ObjectId} {store : Store} (h : ∀ u ∈ store, u.id ∉ xs) :
    store.filter (fun u => decide (u.id ∈ xs)) = [] := by
  rw [List.filter_eq_nil_iff]
  intro u hu
  simpa using h u hu

theorem filter_not_mem_ids_eq_self {xs : List ObjectId} {store : Store}
    (h : ∀ u ∈ store, u.id ∉ xs) :
    store.filter (fun u => !decide (u.id ∈ xs)) = store := by
  rw [List.filter_eq_self]
  intro u hu
  simpa using h u hu

theorem filter_mem_ids_length_pos {xs : List ObjectId} {store : Store}
    (h : ∃ u ∈ store, u.id ∈ xs) :
    (store.filter (fun u => decide (u.id ∈ xs))).length ≠ 0 := by
  obtain ⟨u, hu, hx⟩ := h
  have : u ∈ store.filter (fun u => decide (u.id ∈ xs)) := by
    simp [List.mem_filter, hu, hx]
  exact fun h0 => by
    rw [List.length_eq_zero] at h0
    rw [h0] at this
    exact absurd this (List.not_mem_nil u)

/-- C4: `DELETE /users/delete` answers 400 and leaves the store as it was when
`ids` is missing, is not an array or is the empty array; answers 404 and leaves
the store as it was when no identifier of `ids` is the identifier of a stored
document; and otherwise removes exactly the documents whose identifier occurs
in `ids`, keeps every other document, and answers 200 with what remains. -/
theorem deleteUsersDelete_cases (env : Env) (store : Store) (ids : JsIds) :
    (ids = .undefined ∨ (∃ t, ids = .other t) ∨ ids = .array [] →
      deleteUsersDelete env store ids =
        (.response 400 (.text "Please provide valid user IDs to delete"), store)) ∧
    (∀ xs : List ObjectId, ids = .array xs → xs ≠ [] → env.down 0 = false →
      (∀ u ∈ store, u.id ∉ xs) →
      deleteUsersDelete env store ids = (.response 404 (.text "Users not found"), store)) ∧
    (∀ xs : List ObjectId, ids = .array xs → env.down 0 = false → env.down 1 = false →
      (∃ u ∈ store, u.id ∈ xs) →
      deleteUsersDelete env store ids =
        (.response 200 (.users (store.filter (fun u => !decide (u.id ∈ xs)))),
          store.filter (fun u => !decide (u.id ∈ xs))) ∧
      ∀ u, u ∈ store.filter (fun u => !decide (u.id ∈ xs)) ↔ u ∈ store ∧ u.id ∉ xs) := by
  refine ⟨?_, ?_, ?_⟩
  · rintro (h | ⟨t, h⟩ | h) <;> subst h
    · simp [deleteUsersDelete, JsIds.truthy]
    · simp [deleteUsersDelete, JsIds.isArray]
    · simp [deleteUsersDelete, JsIds.elems]
  · intro xs hxs hne h0 hnone
    subst hxs
    simp [deleteUsersDelete, JsIds.truthy, JsIds.isArray, JsIds.elems, hne, h0, deleteMany,
      filter_mem_ids_eq_nil hnone, filter_not_mem_ids_eq_self hnone]
  · intro xs hxs h0 h1 hsome
    subst hxs
    have hne : xs ≠ [] := by
      obtain ⟨u, -, hx⟩ := hsome
      exact List.ne_nil_of_mem hx
    have hpos := filter_mem_ids_length_pos hsome
    constructor
    · simp only [deleteUsersDelete, JsIds.truthy, JsIds.isArray, JsIds.elems, h0, h1, deleteMany,
        find]
      simp [hne, hpos]
    · intro u
      simp [List.mem_filter]

theorem deleteUsersDelete_cases_witness :
    deleteUsersDelete (calmEnv 9 "s") [alice, bob] (.array []) =
      (.response 400 (.text "Please provide valid user IDs to delete"), [alice, bob]) ∧
    deleteUsersDelete (calmEnv 9 "s") [alice, bob] (.array [5, 6]) =
      (.response 404 (.text "Users not found"), [alice, bob]) ∧
    deleteUsersDelete (calmEnv 9 "s") [alice, bob] (.array [5, 1]) =
      (.response 200 (.users ([alice, bob].filter (fun u => !decide (u.id ∈ [5, 1])))),
        [alice, bob].filter (fun u => !decide (u.id ∈ [5, 1]))) :=
  ⟨(deleteUsersDelete_cases (calmEnv 9 "s") [alice, bob] (.array [])).1 (Or.inr (Or.inr rfl)),
    (deleteUsersDelete_cases (calmEnv 9 "s") [alice, bob] (.array [5, 6])).2.1 [5, 6] rfl
      (by decide) rfl (by decide),
    ((deleteUsersDelete_cases (calmEnv 9 "s") [alice, bob] (.array [5, 1])).2.2 [5, 1] rfl
      rfl rfl ⟨alice, by decide, by decide⟩).1⟩

/-- C5: `DELETE /user/delete/:id` answers 404 and leaves the store as it was
when no document has the identifier; when a document has it (identifiers being
pairwise distinct) it removes that document and no other, and answers 200 with
what remains, which no longer holds the identifier and is one document
shorter. -/
theorem deleteUserDelete_cases (env : Env) (store : Store) (id : ObjectId) :
    (env.down 0 = false → (∀ u ∈ store, u.id ≠ id) →
      deleteUserDelete env store id = (.response 404 (.text "User not found"), store)) ∧
    (env.down 0 = false → env.down 1 = false → UniqueIds store → (∃ u ∈ store, u.id = id) →
      deleteUserDelete env store id =
        (.response 200 (.users (store.filter (fun u => u.id != id))),
          store.filter (fun u => u.id != id)) ∧
      (∀ u, u ∈ store.filter (fun u => u.id != id) ↔ u ∈ store ∧ u.id ≠ id) ∧
      (∀ u ∈ store.filter (fun u => u.id != id), u.id ≠ id) ∧
      (store.filter (fun u => u.id != id)).length + 1 = store.length) := by
  constructor
  · intro h0 hnone
    simp [deleteUserDelete, findByIdAndRemove, h0, find?_id_eq_none hnone]
  · intro h0 h1 huniq hsome
    obtain ⟨u, hu, hid, hfind⟩ := find?_id_eq_some hsome
    have herase := eraseP_id_eq_filter id store huniq
    refine ⟨?_, ?_, ?_, ?_⟩
    · simp [deleteUserDelete, findByIdAndRemove, h0, h1, hfind, find, herase]
    · intro v
      simp [List.mem_filter]
    · intro v hv
      simpa using (List.mem_filter.mp hv).2
    · rw [← herase, List.length_eraseP_of_mem hu (by simpa using hid)]
      have : 0 < store.length := List.length_pos_of_mem hu
      omega

theorem deleteUserDelete_cases_witness :
    deleteUserDelete (calmEnv 9 "s") [alice, bob] 7 =
      (.response 404 (.text "User not found"), [alice, bob]) ∧
    deleteUserDelete (calmEnv 9 "s") [alice, bob] 1 =
      (.response 200 (.users ([alice, bob].filter (fun u => u.id != 1))),
        [alice, bob].filter (fun u => u.id != 1)) :=
  ⟨(deleteUserDelete_cases (calmEnv 9 "s") [alice, bob] 7).1 rfl (by decide),
    ((deleteUserDelete_cases (calmEnv 9 "s") [alice, bob] 1).2 rfl rfl (by decide)
      ⟨alice, by decide, rfl⟩).1⟩

/-! ## The update handler -/

theorem mem_updateFirst_of_find (id : ObjectId) (upd : UpdateDoc) :
    ∀ (store : Store) (u : User), store.find? (fun v => v.id == id) = some u →
      applyUpdate u upd ∈ updateFirst id upd store
  | [], _, h => by simp at h
  | w :: rest, u, h => by
    unfold updateFirst
    by_cases hw : w.id = id
    · have hu : w = u := by simpa [List.find?_cons, hw] using h
      subst hu
      simp [hw]
    · have hrest : rest.find? (fun v => v.id == id) = some u := by
        simpa [List.find?_cons, hw] using h
      simp [hw, mem_updateFirst_of_find id upd rest u hrest]

theorem mem_updateFirst_of_ne (id : ObjectId) (upd : UpdateDoc) :
    ∀ (store : Store) (v : User), v ∈ store → v.id ≠ id → v ∈ updateFirst id upd store
  | [], _, h, _ => by simp at h
  | w :: rest, v, h, hne => by
    unfold updateFirst
    rcases List.mem_cons.mp h with rfl | hv
    · simp [hne]
    · by_cases hw : w.id = id
      · simp [hw, hv]
      · simp [hw, mem_updateFirst_of_ne id upd rest v hv hne]

theorem length_updateFirst (id : ObjectId) (upd : UpdateDoc) :
    ∀ store : Store, (updateFirst id upd store).length = store.length
  | [] => rfl
  | w :: rest => by
    unfold updateFirst
    split
    · simp
    · simp [length_updateFirst id upd rest]

/-- What `PUT /users/update/:id` does to a stored document when the persistence
call does not throw: the document found is rewritten with the request fields
that carry a value and sent back. -/
theorem putUsersUpdate_found (env : Env) (store : Store) (userId : ObjectId) (body : UpdateBody)
    (u : User) (h0 : env.down 0 = false)
    (hfind : store.find? (fun v => v.id == userId) = some u) :
    putUsersUpdate env store userId body =
      (.response 200 (.user
          { id := u.id, name := setField u.name body.name,
            email := setField u.email body.email,
            password := setField u.password body.password,
            status := setField u.status body.status }),
        updateFirst userId
          { name := body.name, email := body.email, password := body.password,
            status := body.status } store) := by
  simp [putUsersUpdate, findByIdAndUpdate, h0, hfind, applyUpdate]

/-- C6: for a stored document with the given identifier, `PUT
/users/update/:id` answers 200 with the updated document, which is in the store
afterwards: each of name, email, password and status that the request omits
keeps its stored value and each one the request provides takes the request's
value; the identifier stays, every document with another identifier is still
in the store and the store has as many documents as before. In particular a
request that carries only the status "inactive" answers with the stored
document whose status alone has changed to "inactive". The persistence call is
assumed not to throw. -/
theorem putUsersUpdate_merges (env : Env) (store : Store) (userId : ObjectId)
    (body : UpdateBody) (u : User) (h0 : env.down 0 = false)
    (hfind : store.find? (fun v => v.id == userId) = some u) :
    ∃ (updated : User) (store' : Store),
      putUsersUpdate env store userId body = (.response 200 (.user updated), store') ∧
      updated ∈ store' ∧ updated.id = u.id ∧
      (body.name = none → updated.name = u.name) ∧
      (body.email = none → updated.email = u.email) ∧
      (body.password = none → updated.password = u.password) ∧
      (body.status = none → updated.status = u.status) ∧
      (∀ v, body.name = some v → updated.name = some v) ∧
      (∀ v, body.email = some v → updated.email = some v) ∧
      (∀ v, body.password = some v → updated.password = some v) ∧
      (∀ v, body.status = some v → updated.status = some v) ∧
      (∀ w ∈ store, w.id ≠ userId → w ∈ store') ∧
      store'.length = store.length ∧
      (body = { name := none, status := some "inactive", email := none, password := none } →
        updated = { u with status := some "inactive" }) := by
  refine ⟨_, _, putUsersUpdate_found env store userId body u h0 hfind, ?_, rfl,
    ?_, ?_, ?_, ?_, ?_, ?_, ?_, ?_, ?_, ?_, ?_⟩
  · have := mem_updateFirst_of_find userId
      { name := body.name, email := body.email, password := body.password,
        status := body.status } store u hfind
    simpa [applyUpdate] using this
  · intro h; simp [h, setField]
  · intro h; simp [h, setField]
  · intro h; simp [h, setField]
  · intro h; simp [h, setField]
  · intro v h; simp [h, setField]
  · intro v h; simp [h, setField]
  · intro v h; simp [h, setField]
  · intro v h; simp [h, setField]
  · intro w hw hne
    exact mem_updateFirst_of_ne userId _ store w hw hne
  · exact length_updateFirst userId _ store
  · intro hb
    subst hb
    simp [setField]

theorem putUsersUpdate_merges_witness :
    ∃ (updated : User) (store' : Store),
      putUsersUpdate (calmEnv 9 "s") [alice, bob] 1
          { name := none, status := some "inactive", email := none, password := none } =
        (.response 200 (.user updated), store') ∧
      updated ∈ store' ∧ bob ∈ store' ∧ store'.length = 2 ∧
      updated = { alice with status := some "inactive" } :=
  match putUsersUpdate_merges (calmEnv 9 "s") [alice, bob] 1
      { name := none, status := some "inactive", email := none, password := none }
      alice rfl (by decide) with
  | ⟨updated, store', hrun, hmem, _, _, _, _, _, _, _, _, _, hkeep, hlen, hstatus⟩ =>
    ⟨updated, store', hrun, hmem, hkeep bob (by decide) (by decide), hlen, hstatus rfl⟩

/-! ## Stored secrets -/

theorem demoServices_hash (salt data : String) (rounds : Nat) :
    demoServices.hash salt data rounds = String.mk (String.toList "$" ++ data.data) := rfl

theorem isHashOutput_demo (data : String) :
    IsHashOutput demoServices (String.mk (String.toList "$" ++ data.data)) :=
  ⟨"", data, rfl⟩

theorem not_isHashOutput_demo_pw3 : ¬ IsHashOutput demoServices "pw3" := by
  rintro ⟨salt, data, h⟩
  rw [demoServices_hash] at h
  have hd := congrArg String.data h
  simp at hd

/-- C7: evaluation of `PUT /users/update/:id` on a request that carries a
password: every stored secret is a hash before the call, the handler answers
200, and afterwards the updated document holds the request's password itself,
which is not an output of the hashing primitive. -/
theorem putUsersUpdate_stores_raw_password :
    AllHashed demoServices [alice, bob] ∧
    putUsersUpdate (calmEnv 9 "s") [alice, bob] 1
        { name := some "A", status := some "active", email := some "a@x.com",
          password := some "pw3" } =
      (.response 200 (.user
          { id := 1, name := some "A", email := some "a@x.com", password := some "pw3",
            status := some "active" }),
        [{ id := 1, name := some "A", email := some "a@x.com", password := some "pw3",
           status := some "active" }, bob]) ∧
    ¬ AllHashed demoServices
        [{ id := 1, name := some "A", email := some "a@x.com", password := some "pw3",
           status := some "active" }, bob] := by
  refine ⟨?_, by decide, ?_⟩
  · intro u hu
    simp only [List.mem_cons, List.mem_singleton, List.not_mem_nil, or_false] at hu
    rcases hu with rfl | rfl
    · exact ⟨"$pw1", rfl, isHashOutput_demo "pw1"⟩
    · exact ⟨"$pw2", rfl, isHashOutput_demo "pw2"⟩
  · intro hall
    obtain ⟨h, hpw, hout⟩ := hall _ (List.mem_cons_self _ _)
    simp only [Option.some.injEq] at hpw
    subst hpw
    exact not_isHashOutput_demo_pw3 hout

/-! ## Persistence failures -/

/-- The four handlers with a `try` block never let a rejection escape: whatever
the persistence calls do, the caller gets a response. -/
theorem guarded_handlers_respond (env : Env) (store : Store) (id : ObjectId) (body : UpdateBody)
    (ids : JsIds) (e : Failure) :
    (getUsers env store).1 ≠ .unhandled e ∧
    (deleteUserDelete env store id).1 ≠ .unhandled e ∧
    (putUsersUpdate env store id body).1 ≠ .unhandled e ∧
    (deleteUsersDelete env store ids).1 ≠ .unhandled e := by
  refine ⟨?_, ?_, ?_, ?_⟩
  · unfold getUsers
    split <;> simp
  · unfold deleteUserDelete
    split
    · simp
    · simp
    · split <;> simp
  · unfold putUsersUpdate
    simp only
    split <;> simp
  · unfold deleteUsersDelete
    split
    · simp
    · split
      · simp
      · split
        · simp
        · split <;> simp

/-- A persistence call that throws inside a handler with a `try` block is
answered with 500 "Server Error". -/
theorem guarded_handlers_500 (env : Env) (store : Store) (id : ObjectId) (body : UpdateBody)
    (xs : List ObjectId) (hxs : xs ≠ []) (h0 : env.down 0 = true) :
    getUsers env store = (.response 500 (.text "Server Error"), store) ∧
    deleteUserDelete env store id = (.response 500 (.text "Server Error"), store) ∧
    putUsersUpdate env store id body = (.response 500 (.text "Server Error"), store) ∧
    deleteUsersDelete env store (.array xs) =
      (.response 500 (.text "Server Error"), store) := by
  refine ⟨?_, ?_, ?_, ?_⟩
  · simp [getUsers, find, h0]
  · simp [deleteUserDelete, findByIdAndRemove, h0]
  · simp [putUsersUpdate, findByIdAndUpdate, h0]
  · simp [deleteUsersDelete, JsIds.truthy, JsIds.isArray, JsIds.elems, hxs, deleteMany, h0]

/-- C8: evaluation of `POST /register` and `POST /login` when their first
persistence call throws: neither handler sends a response, the rejection
escapes (while `GET /users` in the same situation answers 500). -/
theorem unguarded_handlers_leak (svc : Services) (newId : ObjectId) (salt : String) (store : Store)
    (body : RegisterBody) :
    postRegister svc { newId := newId, salt := salt, down := fun _ => true } store body =
      (.unhandled .storeError, store) ∧
    postLogin svc { newId := newId, salt := salt, down := fun _ => true } store
        { email := some "a@x.com", password := some "pw1" } =
      (.unhandled .storeError, store) ∧
    getUsers { newId := newId, salt := salt, down := fun _ => true } store =
      (.response 500 (.text "Server Error"), store) := by
  refine ⟨?_, ?_, ?_⟩
  · simp [postRegister, findOne]
  · simp [postLogin, findOne, falsy]
  · simp [getUsers, find]

/-! ## Registration followed by login -/

theorem demoServices_roundtrip :
    (∀ salt d, demoServices.compare d (demoServices.hash salt d 10) = true) ∧
    (∀ salt d d', d' ≠ d → demoServices.compare d' (demoServices.hash salt d 10) = false) := by
  constructor
  · intro salt d
    simp [demoServices]
  · intro salt d d' hne
    have : ¬ d.data = d'.data := fun h => hne (String.ext h).symm
    simp only [demoServices, beq_eq_false_iff_ne, ne_eq]
    intro h
    have hd := congrArg String.data h
    simp only [List.append_cancel_left_eq] at hd
    exact this hd

/-- C9: with a hashing primitive whose `compare` accepts exactly the password
that was hashed, registering a non-empty email and password on a store without
that email and then logging in with the same email and password answers 200
with the token of the registered document's identifier, and logging in with
another non-empty password answers 400 "Incorrect password!". The persistence
calls are assumed not to throw and the `_id` drawn is not yet in the store. -/
theorem register_then_login (svc : Services) (env envA envB : Env) (store : Store)
    (name : Option String) (e p p' : String)
    (hv : ∀ salt d, svc.compare d (svc.hash salt d 10) = true)
    (hv' : ∀ salt d d', d' ≠ d → svc.compare d' (svc.hash salt d 10) = false)
    (h0 : env.down 0 = false) (h1 : env.down 1 = false)
    (hA : envA.down 0 = false) (hB : envB.down 0 = false)
    (hemail : ∀ u ∈ store, u.email ≠ some e) (hid : ∀ u ∈ store, u.id ≠ env.newId)
    (he : e ≠ "") (hp : p ≠ "") (hp' : p' ≠ "") (hne : p' ≠ p) :
    ∃ (user : User) (store' : Store),
      postRegister svc env store { name := name, email := some e, password := some p } =
        (.response 200 (.user user), store') ∧
      postLogin svc envA store' { email := some e, password := some p } =
        (.response 200 (.token (svc.generateUserToken user.id)), store') ∧
      postLogin svc envB store' { email := some e, password := some p' } =
        (.response 400 (.text "Incorrect password!"), store') := by
  refine ⟨_, _, postRegister_fresh svc env store name (some e) p h0 h1 hemail hid, ?_, ?_⟩
  · simp only [postLogin, hA]
    rw [findOne_append_new hemail rfl]
    simp [falsy, he, hp, bcryptCompare, hv]
  · simp only [postLogin, hB]
    rw [findOne_append_new hemail rfl]
    simp [falsy, he, hp', bcryptCompare, hv' _ _ _ hne]

theorem register_then_login_witness :
    ∃ (user : User) (store' : Store),
      postRegister demoServices (calmEnv 3 "s") [alice, bob]
          { name := some "C", email := some "c@x.com", password := some "pw3" } =
        (.response 200 (.user user), store') ∧
      postLogin demoServices (calmEnv 4 "t") store'
          { email := some "c@x.com", password := some "pw3" } =
        (.response 200 (.token (demoServices.generateUserToken user.id)), store') ∧
      postLogin demoServices (calmEnv 5 "u") store'
          { email := some "c@x.com", password := some "wrong" } =
        (.response 400 (.text "Incorrect password!"), store') :=
  register_then_login demoServices (calmEnv 3 "s") (calmEnv 4 "t") (calmEnv 5 "u")
    [alice, bob] (some "C") "c@x.com" "pw3" "wrong"
    demoServices_roundtrip.1 demoServices_roundtrip.2 rfl rfl rfl rfl
    (by decide) (by decide) (by decide) (by decide) (by decide) (by decide)

/-! ## Email uniqueness -/

/-- C10: `PUT /users/update/:id` checks no email: there is a store in which
all emails are distinct, a stored identifier and a request carrying an email
such that the handler answers 200 and the store afterwards holds two documents
with different identifiers and that same email. -/
theorem putUsersUpdate_duplicates_email :
    ∃ (env : Env) (store : Store) (id : ObjectId) (body : UpdateBody) (e : String),
      UniqueEmails store ∧ (∃ u ∈ store, u.id = id) ∧ body.email = some e ∧
      ∃ (updated : User) (store' : Store),
        putUsersUpdate env store id body = (.response 200 (.user updated), store') ∧
        ∃ u ∈ store', ∃ v ∈ store', u.id ≠ v.id ∧ u.email = some e ∧ v.email = some e :=
  ⟨calmEnv 9 "s", [alice, bob], 2,
    { name := some "B", status := some "active", email := some "a@x.com",
      password := some "$pw2" }, "a@x.com",
    by decide, ⟨bob, by decide, rfl⟩, rfl,
    { id := 2, name := some "B", email := some "a@x.com", password := some "$pw2",
      status := some "active" },
    [alice, { id := 2, name := some "B", email := some "a@x.com", password := some "$pw2",
              status := some "active" }],
    by decide,
    alice, by decide,
    { id := 2, name := some "B", email := some "a@x.com", password := some "$pw2",
      status := some "active" }, by decide, by decide, rfl, rfl⟩

/-! ## Invariants of the store -/

theorem AllHashed.of_subset {svc : Services} {store store' : Store}
    (h : AllHashed svc store) (hsub : ∀ u ∈ store', u ∈ store) : AllHashed svc store' :=
  fun u hu => h u (hsub u hu)

theorem map_id_updateFirst (id : ObjectId) (upd : UpdateDoc) :
    ∀ store : Store, (updateFirst id upd store).map (fun u => u.id) = store.map (fun u => u.id)
  | [] => rfl
  | u :: rest => by
    unfold updateFirst
    split
    · simp [applyUpdate]
    · simp [map_id_updateFirst id upd rest]

/-- Every handler other than the update handler keeps the stored secrets
hashed: registration stores `bcrypt.hash` of the password, the others store
nothing. -/
theorem allHashed_preserved (svc : Services) (env : Env) (store : Store)
    (rbody : RegisterBody) (lbody : LoginBody) (id : ObjectId) (ids : JsIds)
    (h : AllHashed svc store) :
    AllHashed svc (postRegister svc env store rbody).2 ∧
    AllHashed svc (getUsers env store).2 ∧
    AllHashed svc (deleteUserDelete env store id).2 ∧
    AllHashed svc (postLogin svc env store lbody).2 ∧
    AllHashed svc (deleteUsersDelete env store ids).2 := by
  refine ⟨?_, ?_, ?_, ?_, ?_⟩
  · unfold postRegister
    split
    · exact h
    · exact h
    · split
      · exact h
      · rename_i hashedPassword hhash
        simp only
        split
        · exact h
        · rename_i store' hsave
          have hst : store' = store ++
              [{ id := env.newId, name := rbody.name, email := rbody.email,
                 password := some hashedPassword, status := some "active" }] := by
            unfold save at hsave
            split at hsave
            · cases hsave
            · split at hsave
              · cases hsave
              · cases hsave; rfl
          subst hst
          intro u hu
          rcases List.mem_append.mp hu with hu | hu
          · exact h u hu
          · rw [List.mem_singleton.mp hu]
            refine ⟨hashedPassword, rfl, ?_⟩
            unfold bcryptHash at hhash
            split at hhash
            · cases hhash
            · cases hhash
              exact ⟨env.salt, _, rfl⟩
  · unfold getUsers
    split <;> exact h
  · unfold deleteUserDelete
    split
    · exact h
    · rename_i store' hrem
      unfold findByIdAndRemove at hrem
      split at hrem
      · cases hrem
      · split at hrem
        · cases hrem; exact h
        · cases hrem
    · rename_i store' hrem
      have hsub : ∀ u ∈ store', u ∈ store := by
        unfold findByIdAndRemove at hrem
        split at hrem
        · cases hrem
        · split at hrem
          · cases hrem
          · cases hrem
            exact fun u hu => List.mem_of_mem_eraseP hu
      split <;> exact h.of_subset hsub
  · unfold postLogin
    split
    · exact h
    · split
      · exact h
      · exact h
      · split <;> exact h
  · unfold deleteUsersDelete
    split
    · exact h
    · split
      · exact h
      · rename_i deletedCount store' hdel
        have hsub : ∀ u ∈ store', u ∈ store := by
          unfold deleteMany at hdel
          split at hdel
          · cases hdel
          · cases hdel
            exact fun u hu => List.mem_of_mem_filter hu
        split
        · exact h.of_subset hsub
        · split <;> exact h.of_subset hsub

/-- Every handler keeps the identifiers of the stored documents pairwise
distinct. -/
theorem uniqueIds_preserved (svc : Services) (env : Env) (store : Store)
    (rbody : RegisterBody) (lbody : LoginBody) (ubody : UpdateBody) (id : ObjectId) (ids : JsIds)
    (h : UniqueIds store) :
    UniqueIds (postRegister svc env store rbody).2 ∧
    UniqueIds (getUsers env store).2 ∧
    UniqueIds (deleteUserDelete env store id).2 ∧
    UniqueIds (postLogin svc env store lbody).2 ∧
    UniqueIds (putUsersUpdate env store id ubody).2 ∧
    UniqueIds (deleteUsersDelete env store ids).2 := by
  refine ⟨?_, ?_, ?_, ?_, ?_, ?_⟩
  · unfold postRegister
    split
    · exact h
    · exact h
    · split
      · exact h
      · simp only
        split
        · exact h
        · rename_i store' hsave
          unfold save at hsave
          split at hsave
          · cases hsave
          · split at hsave
            · cases hsave
            · rename_i hany
              cases hsave
              unfold UniqueIds at h ⊢
              rw [List.map_append, List.nodup_append]
              refine ⟨h, by simp, ?_⟩
              simp only [List.map_cons, List.map_nil]
              rw [List.disjoint_singleton]
              intro hmem
              apply hany
              obtain ⟨v, hv, hvid⟩ := List.mem_map.mp hmem
              rw [List.any_eq_true]
              exact ⟨v, hv, by simpa using hvid⟩
  · unfold getUsers
    split <;> exact h
  · have hsub : ∀ {store' : Store} {o : Option User},
        findByIdAndRemove (env.down 0) id store = .ok (o, store') → UniqueIds store' := by
      intro store' o hrem
      unfold findByIdAndRemove at hrem
      split at hrem
      · cases hrem
      · split at hrem
        · cases hrem; exact h
        · cases hrem
          exact List.Nodup.sublist (List.Sublist.map _ (List.eraseP_sublist _)) h
    unfold deleteUserDelete
    split
    · exact h
    · rename_i store' hrem
      exact hsub hrem
    · rename_i store' hrem
      split <;> exact hsub hrem
  · unfold postLogin
    split
    · exact h
    · split
      · exact h
      · exact h
      · split <;> exact h
  · have hsub : ∀ {store' : Store} {o : Option User} {upd : UpdateDoc},
        findByIdAndUpdate (env.down 0) id upd store = .ok (o, store') → UniqueIds store' := by
      intro store' o upd hupd
      unfold findByIdAndUpdate at hupd
      split at hupd
      · cases hupd
      · split at hupd
        · cases hupd; exact h
        · cases hupd
          unfold UniqueIds
          rw [map_id_updateFirst]
          exact h
    unfold putUsersUpdate
    simp only
    split
    · exact h
    · rename_i store' hupd
      exact hsub hupd
    · rename_i store' hupd
      exact hsub hupd
  · unfold deleteUsersDelete
    split
    · exact h
    · split
      · exact h
      · rename_i deletedCount store' hdel
        have hu : UniqueIds store' := by
          unfold deleteMany at hdel
          split at hdel
          · cases hdel
          · cases hdel
            exact List.Nodup.sublist (List.Sublist.map _ (List.filter_sublist _)) h
        split
        · exact hu
        · split <;> exact hu

end MyRestApi
